import Mathlib

/-!
Verification of the alpaca-rs client library against its specification.

The development shallowly embeds the Rust sources:
  * `src/utils.rs` — `PriceType` (`Display` / `FromStr`), `AtomicF64`, `Position`;
  * `src/alpaca_client.rs` — `validate_keys`, `connect`, `make_request`,
    `get_prices` (the request layer and its error taxonomy);
  * `src/alpaca_wrapper.rs` — `update_prices`, `update_positions_async`,
    `update_cash_async` (the stateful wrapper).

JSON values (`serde_json::Value`) are embedded as the inductive `Json`;
`serde_json` maps and Rust `HashMap`s are embedded as association lists
(the claims settled here never depend on iteration order of a map with
duplicate keys).  Rust `f64` values produced by string parsing are embedded
exactly (`RustF64`): NaN and the two infinities are explicit constructors
and every other parsed value is kept as the exact rational the decimal
literal denotes.  Rounding of a finite decimal to the nearest double is not
modelled (no claim distinguishes two decimals that round to the same
double); overflow of a huge literal to infinity is modelled via the IEEE
round-to-nearest cutoff.  Side effects are made explicit: functions that
can panic return `Option`, outcomes that would perform an HTTP request are
reified as constructors so that "no network call" is a statement about the
returned value.
-/

set_option autoImplicit false

namespace AlpacaRs

/-- Embedding of `serde_json::Value`.  Numbers are kept as exact rationals. -/
inductive Json where
  | null
  | bool (b : Bool)
  | num (q : ℚ)
  | str (s : String)
  | arr (elems : List Json)
  | obj (fields : List (String × Json))

/-- `Value::as_str`: `Some` exactly on JSON strings. -/
def Json.asStr : Json → Option String
  | .str s => some s
  | _ => none

/-- Lookup of a key in the field list of a JSON object (first match). -/
def lookupField : List (String × Json) → String → Option Json
  | [], _ => none
  | (k, v) :: rest, key => if k = key then some v else lookupField rest key

/-- `serde_json`'s `Index<&str>` on `Value` (`value["key"]`): field lookup on
objects, `Null` on a missing key and on every non-object value. -/
def Json.index (v : Json) (key : String) : Json :=
  match v with
  | .obj fields => (lookupField fields key).getD .null
  | _ => .null

/-- `Value::get(&str)`: `Some` field on objects, `None` otherwise. -/
def Json.get? (v : Json) (key : String) : Option Json :=
  match v with
  | .obj fields => lookupField fields key
  | _ => none

/-- The error enum `AlpacaError` of `src/alpaca_client.rs`.  `reqwest`
error payloads are embedded as their display strings. -/
inductive AlpacaError where
  | invalidKeyFormat
  | httpError (status : Nat) (message : String)
  | requestError (message : String)
  | jsonError (message : String)
  | connectionError (message : String)
  | timeout
  | other (message : String)
deriving DecidableEq

/-! ### PriceType (`src/utils.rs`) -/

/-- The closed enumeration `PriceType` of `src/utils.rs`. -/
inductive PriceType where
  | Trades
  | Quotes
  | Bars
deriving DecidableEq

/-- `impl fmt::Display for PriceType` (`src/utils.rs:52-60`): the textual
form of each variant is its lowercase name. -/
def PriceType.fmt : PriceType → String
  | .Trades => "trades"
  | .Quotes => "quotes"
  | .Bars => "bars"

/-- `impl FromStr for PriceType` (`src/utils.rs:62-73`). -/
def PriceType.from_str (s : String) : Except String PriceType :=
  if s = "trades" then .ok .Trades
  else if s = "quotes" then .ok .Quotes
  else if s = "bars" then .ok .Bars
  else .error ("Invalid value: " ++ s ++ ". Expected one of: trades, quotes, bars")

/-! ### Credential validation and `connect` (`src/alpaca_client.rs`) -/

/-- One character of the class `[A-Z0-9]` (ASCII ranges, as in the `regex`
crate for these literal ranges). -/
def isUpperDigit (c : Char) : Bool :=
  c.isUpper || c.isDigit

/-- Match of the anchored regex `^(PK|AK)[A-Z0-9]{10,}$` from
`AlpacaClient::validate_keys` (`src/alpaca_client.rs:86`). -/
def keyMatch (s : String) : Bool :=
  match s.toList with
  | 'P' :: 'K' :: rest => decide (10 ≤ rest.length) && rest.all isUpperDigit
  | 'A' :: 'K' :: rest => decide (10 ≤ rest.length) && rest.all isUpperDigit
  | _ => false

/-- Match of the anchored regex `^[A-Za-z0-9]{40,}$` from
`AlpacaClient::validate_keys` (`src/alpaca_client.rs:87`). -/
def secretMatch (s : String) : Bool :=
  decide (40 ≤ s.length) && s.toList.all Char.isAlphanum

/-- `AlpacaClient::validate_keys` (`src/alpaca_client.rs:85-89`): both
regexes must match.  The model is a pure function of the two strings, so
purity and determinism hold by construction. -/
def validate_keys (api_key api_secret : String) : Bool :=
  keyMatch api_key && secretMatch api_secret

/-- A character acceptable inside an HTTP header value
(`HeaderValue::from_str`): horizontal tab or any char that is not an ASCII
control character and not DEL. -/
def headerChar (c : Char) : Bool :=
  c = '\t' || (32 ≤ c.toNat && c.toNat ≠ 127)

/-- All characters of a string are acceptable in a header value. -/
def headerValueOk (s : String) : Bool :=
  s.toList.all headerChar

/-- Observable outcome of `AlpacaClient::connect`
(`src/alpaca_client.rs:52-83`) up to the first network access:
either it returns an error before any request is sent, or it reaches the
`get_account` call with the three authentication headers installed. -/
inductive ConnectOutcome where
  | failBeforeNetwork (e : AlpacaError)
  | proceedToAccount (headers : List (String × String))
deriving DecidableEq

/-- `AlpacaClient::connect` (`src/alpaca_client.rs:52-83`): validate the
keys, build the header map (header construction failures are mapped to
`InvalidKeyFormat`), then perform the `get_account` request. -/
def connect (api_key api_secret : String) : ConnectOutcome :=
  if validate_keys api_key api_secret = false then
    .failBeforeNetwork .invalidKeyFormat
  else if headerValueOk api_key && headerValueOk api_secret then
    .proceedToAccount
      [("APCA-API-KEY-ID", api_key),
       ("APCA-API-SECRET-KEY", api_secret),
       ("Content-Type", "application/json")]
  else
    .failBeforeNetwork .invalidKeyFormat

/-- Number of HTTP requests `connect` performs on each outcome: zero when
it fails before the network, one (`get_account`) when it proceeds. -/
def ConnectOutcome.networkCalls : ConnectOutcome → Nat
  | .failBeforeNetwork _ => 0
  | .proceedToAccount _ => 1

/-! ### `make_request` response handling (`src/alpaca_client.rs:91-144`) -/

/-- One HTTP response as observed by `make_request`: the status code, the
body text (`none` when the body cannot be read) and the JSON decoding of
the body (`none` when it is not valid JSON). -/
structure HttpResponse where
  status : Nat
  body : Option String
  jsonBody : Option Json

/-- Result of the single `request.send()` call inside `make_request`:
a timeout, a connect failure, another transport failure, or a response.
`make_request` consumes exactly one such outcome — there is no retry. -/
inductive SendOutcome where
  | timedOut
  | connectFailed (msg : String)
  | sendFailed (msg : String)
  | response (r : HttpResponse)

/-- `StatusCode::is_success`: the 2xx range. -/
def statusIsSuccess (status : Nat) : Bool :=
  decide (200 ≤ status) && decide (status ≤ 299)

/-- `AlpacaClient::make_request` (`src/alpaca_client.rs:91-144`) after the
request is built: classify the send failure, or turn a non-2xx response
into `HttpError { status, message }` with `"Unknown error"` substituted
for an unreadable body (a 429 takes this same path, after a rate-limit
warning log), or JSON-decode a successful response. -/
def make_request (s : SendOutcome) : Except AlpacaError Json :=
  match s with
  | .timedOut => .error .timeout
  | .connectFailed m => .error (.connectionError m)
  | .sendFailed m => .error (.requestError m)
  | .response r =>
    if statusIsSuccess r.status then
      match r.jsonBody with
      | some j => .ok j
      | none => .error (.requestError "error decoding response body")
    else
      .error (.httpError r.status (r.body.getD "Unknown error"))

/-! ### `get_prices` (`src/alpaca_client.rs:220-258`) -/

/-- The `allowed_types` array of `get_prices`. -/
def allowed_types : List String := ["trades", "quotes", "bars"]

/-- The `AlpacaError::Other` message `get_prices` builds for an invalid
price type: it names the offending value and the joined allowed set. -/
def invalid_type_msg (price_type : String) : String :=
  "Invalid price type: " ++ price_type ++ ". Allowed: trades, quotes, bars"

/-- Observable outcome of `AlpacaClient::get_prices` up to the network
boundary: an error before any request, the empty-assets short circuit, or
the `make_request` call with its endpoint and `symbols` query value.  Only
the `request` outcome performs an HTTP call. -/
inductive PricesOutcome where
  | errored (e : AlpacaError)
  | ok (v : Json)
  | request (endpoint : String) (symbols : String)

/-- `AlpacaClient::get_prices` (`src/alpaca_client.rs:220-258`): first the
allowed-set check on the price type, then the empty-assets short circuit,
then the request against the market-data host. -/
def get_prices (assets : List String) (price_type : String) : PricesOutcome :=
  if (allowed_types.contains price_type) = false then
    .errored (.other (invalid_type_msg price_type))
  else if assets.isEmpty then
    .ok (.obj [])
  else
    .request ("/v2/stocks/" ++ price_type ++ "/latest") (String.intercalate "," assets)

/-- Number of HTTP calls a `get_prices` outcome performs. -/
def PricesOutcome.httpCalls : PricesOutcome → Nat
  | .request _ _ => 1
  | _ => 0

end AlpacaRs

namespace AlpacaRs

/-! ### Rust `f64` string parsing (`str::parse::<f64>()`)

Rust's `FromStr for f64` accepts, case-insensitively and after an optional
sign, the literals `inf`, `infinity` and `nan`, and otherwise a decimal
number `Digits '.'? Digits? Exp?` or `'.' Digits Exp?` with
`Exp ::= ('e'|'E') Sign? Digits`.  The parsed finite value is kept as the
exact rational the literal denotes; a magnitude at or beyond the IEEE
double round-to-nearest overflow cutoff `2^1024 - 2^970` becomes the
signed infinity.  (Rounding to the nearest double and the underflow of
tiny literals to zero are not modelled; no claim depends on them, and in
particular no decimal literal ever parses to NaN, in the model exactly as
in Rust.) -/

/-- A Rust `f64` value as far as the claims observe it: NaN, a signed
infinity, or an exact finite value. -/
inductive RustF64 where
  | nan
  | inf (neg : Bool)
  | finite (q : ℚ)
deriving DecidableEq

/-- `true` exactly on finite values. -/
def RustF64.isFinite : RustF64 → Bool
  | .finite _ => true
  | _ => false

/-- `true` exactly on NaN. -/
def RustF64.isNan : RustF64 → Bool
  | .nan => true
  | _ => false

/-- Value of a list of ASCII digits read in base 10. -/
def digitsToNat (ds : List Char) : Nat :=
  ds.foldl (fun a c => 10 * a + (c.toNat - 48)) 0

/-- Smallest magnitude that rounds to infinity when converted to an IEEE
double under round-to-nearest: `2^1024 - 2^970`, written as an explicit
numeral so that evaluation never unfolds a large exponentiation (the
equation `f64OverflowCutoff_eq` below certifies the numeral). -/
def f64OverflowCutoff : Nat := 179769313486231580793728971405303415079934132710037826936173778980444968292764750946649017977587207096330286416692887910946555547851940402630657488671505820681908902000708383676273854845817711531764475730270069855571366959622842914819860834936475292719074168444365510704342711559699508093042880177904174497792

/-- The overflow cutoff numeral is `2^1024 - 2^970`. -/
theorem f64OverflowCutoff_eq : f64OverflowCutoff = 2 ^ 1024 - 2 ^ 970 := by
  norm_num [f64OverflowCutoff]

/-- Whether the exact rational `q` has magnitude at or beyond the double
overflow cutoff (`|q| ≥ cutoff`, compared by cross multiplication). -/
def overflowsF64 (q : ℚ) : Bool :=
  decide (f64OverflowCutoff * q.den ≤ q.num.natAbs)

/-- Assemble the parsed decimal `Sign? ipart '.' fpart 'e' ex` into a
`RustF64`: the exact rational, or the signed infinity on overflow. -/
def RustF64.ofParts (neg : Bool) (ipart fpart : List Char) (ex : Int) : RustF64 :=
  let mant : Nat := digitsToNat (ipart ++ fpart)
  let e : Int := ex - fpart.length
  let q : ℚ :=
    if 0 ≤ e then (mant : ℚ) * ((10 : ℚ) ^ e.toNat)
    else mkRat mant (10 ^ (-e).toNat)
  if overflowsF64 q then .inf neg
  else .finite (if neg then -q else q)

/-- Parse the optional exponent suffix: empty input means exponent `0`;
otherwise `('e'|'E') Sign? Digits` must consume the whole input. -/
def parseExpSuffix (cs : List Char) : Option Int :=
  match cs with
  | [] => some 0
  | 'e' :: rest => parseExpTail rest
  | 'E' :: rest => parseExpTail rest
  | _ => none
where
  /-- Parse `Sign? Digits` to the end of the input. -/
  parseExpTail (cs : List Char) : Option Int :=
    let (eneg, rest) :=
      match cs with
      | '+' :: r => (false, r)
      | '-' :: r => (true, r)
      | r => (false, r)
    let (ds, rest2) := rest.span Char.isDigit
    if ds.isEmpty || !rest2.isEmpty then none
    else some (if eneg then -(digitsToNat ds : Int) else (digitsToNat ds : Int))

/-- Parse the decimal-number alternative (input is the text after the
optional sign, already known not to be an `inf`/`nan` literal). -/
def parseDecimal (neg : Bool) (cs : List Char) : Option RustF64 :=
  let (ipart, rest) := cs.span Char.isDigit
  match rest with
  | '.' :: rest2 =>
    let (fpart, rest3) := rest2.span Char.isDigit
    if ipart.isEmpty && fpart.isEmpty then none
    else (parseExpSuffix rest3).map (RustF64.ofParts neg ipart fpart)
  | _ =>
    if ipart.isEmpty then none
    else (parseExpSuffix rest).map (RustF64.ofParts neg ipart [])

/-- Rust's `str::parse::<f64>()`: `some` on success, `none` on a parse
error. -/
def rustParseF64 (s : String) : Option RustF64 :=
  let (neg, rest) :=
    match s.toList with
    | '+' :: r => (false, r)
    | '-' :: r => (true, r)
    | r => (false, r)
  let low := rest.map Char.toLower
  if low = ['i', 'n', 'f'] ∨ low = ['i', 'n', 'f', 'i', 'n', 'i', 't', 'y'] then
    some (.inf neg)
  else if low = ['n', 'a', 'n'] then
    some .nan
  else
    parseDecimal neg rest

/-! ### Positions and the wrapper state (`src/utils.rs`, `src/alpaca_wrapper.rs`) -/

/-- The `Position` record of `src/utils.rs:102-108`. -/
structure Position where
  qty : RustF64
  value : RustF64
  entry : RustF64
  price : RustF64
deriving DecidableEq

/-- The `PositionBook`: symbol-keyed map embedded as an association list. -/
abbrev Book := List (String × Position)

/-- `HashMap::insert` on an association list: replace the value at an
existing key, otherwise append the new entry. -/
def insertBook (b : Book) (k : String) (v : Position) : Book :=
  match b with
  | [] => [(k, v)]
  | (k2, v2) :: rest =>
    if k2 = k then (k2, v) :: rest else (k2, v2) :: insertBook rest k v

/-- The closure `parse_value` of `update_positions_async`
(`src/alpaca_wrapper.rs:170-175`): index the position JSON at `key`, take
it as a string, parse it as `f64`, and fall back to `0.0` when the field
is absent, not a string, or unparseable. -/
def parse_value (position : Json) (key : String) : RustF64 :=
  (((position.index key).asStr).bind rustParseF64).getD (.finite 0)

/-- The `Position` built for one JSON position value
(`src/alpaca_wrapper.rs:179-184`). -/
def mkPosition (position : Json) : Position :=
  { qty := parse_value position "qty_available"
    value := parse_value position "market_value"
    entry := parse_value position "avg_entry_price"
    price := parse_value position "current_price" }

/-- Result of acquiring the write lock on the `PositionBook`
(`RwLock::write`): acquired, or poisoned (`Err` from `write()`). -/
inductive LockResult where
  | acquired
  | poisoned
deriving DecidableEq

/-- The log line emitted on a poisoned lock
(`src/alpaca_wrapper.rs:194`), with the poison payload elided. -/
def lockFailMsg : String := "Failed to acquire write lock for positions"

/-- The `filter_map`/`collect` pipeline of `update_positions_async`
(`src/alpaca_wrapper.rs:161-186`) applied faithfully to what the source
iterates: `positions` is the whole `Result<Value, AlpacaError>` of
`get_positions`, and `Result::into_iter` yields the `Ok` value itself at
most once — the response JSON is never unpacked into its array elements.
Each iterated item is indexed at `"symbol"`; `as_str().unwrap()` on a
non-string panics, which the model reports as `none`. -/
def buildNewPositions (assets : List String) (resp : Except AlpacaError Json) : Option Book :=
  let items : List Json :=
    match resp with
    | .ok v => [v]
    | .error _ => []
  collectPositions assets items []
where
  /-- The loop body: filter on the tracked assets and collect into the
  new book (`HashMap` insert, last write wins). -/
  collectPositions (assets : List String) : List Json → Book → Option Book
    | [], acc => some acc
    | position :: rest, acc =>
      match (position.index "symbol").asStr with
      | none => none
      | some symbol =>
        if symbol ∈ assets then
          collectPositions assets rest (insertBook acc symbol (mkPosition position))
        else
          collectPositions assets rest acc

/-- `AlpacaWrapper::update_positions_async` (`src/alpaca_wrapper.rs:157-197`):
build the replacement book, then take the write lock; on success the book
is replaced wholesale, on a poisoned lock the failure is logged and the
old book kept.  The result is `none` when the build panics, otherwise the
final book together with the emitted error-log lines. -/
def update_positions (assets : List String) (resp : Except AlpacaError Json)
    (old : Book) (lock : LockResult) : Option (Book × List String) :=
  match buildNewPositions assets resp with
  | none => none
  | some newBook =>
    match lock with
    | .acquired => some (newBook, [])
    | .poisoned => some (old, [lockFailMsg])

/-- `AlpacaWrapper::update_cash_async` (`src/alpaca_wrapper.rs:199-212`):
`expect` panics (modelled as `none`) on a failed account request and on a
missing `cash` field; otherwise the field is taken as a string with `"0"`
substituted for a non-string, parsed as `f64` with a `0.0` fallback, and
the result is the value handed to the atomic store. -/
def update_cash (resp : Except AlpacaError Json) : Option RustF64 :=
  match resp with
  | .error _ => none
  | .ok v =>
    match v.get? "cash" with
    | none => none
    | some cashVal =>
      some ((rustParseF64 (cashVal.asStr.getD "0")).getD (.finite 0))

end AlpacaRs

namespace AlpacaRs

/-! ### Price fan-out (`AlpacaWrapper::update_prices`,
`src/alpaca_wrapper.rs:93-147`)

The source spawns one task per price type, then consumes the task results
in completion order.  The model takes the list of task results as input
(one `Except` per completed task, in the order they are consumed) and
reproduces the merge loop and the final store.  Two separate tables occur
in the source: the local `asset_prices` the loop fills, and the local
`last_prices` — a `HashMap::new()` created before the loop, never written
to, and assigned to `self.last_prices` under the write lock at the end.
The model returns both, so the value actually stored is the second
component. -/

/-- Per-asset map from `PriceType` to the raw payload. -/
abbrev AssetMap := List (PriceType × Json)

/-- The price table: symbol-keyed map of per-asset maps. -/
abbrev PriceTable := List (String × AssetMap)

/-- `HashMap::insert` on a per-asset map. -/
def insertAssetMap (m : AssetMap) (k : PriceType) (v : Json) : AssetMap :=
  match m with
  | [] => [(k, v)]
  | (k2, v2) :: rest =>
    if k2 = k then (k2, v) :: rest else (k2, v2) :: insertAssetMap rest k v

/-- `asset_prices.get_mut(asset).unwrap()` followed by an insert
(`src/alpaca_wrapper.rs:126-131`): update the entry of `asset` in place;
`none` models the `unwrap` panic when the asset has no entry. -/
def updateTable (t : PriceTable) (asset : String) (k : PriceType) (v : Json) :
    Option PriceTable :=
  match t with
  | [] => none
  | (a, m) :: rest =>
    if a = asset then some ((a, insertAssetMap m k v) :: rest)
    else (updateTable rest asset k v).map ((a, m) :: ·)

/-- The inner loop over one `price_map` (`src/alpaca_wrapper.rs:124-133`):
for each `(asset_name, prices)` entry, assets outside the universe are
discarded; for a tracked asset the price-type label is parsed with
`from_str(..).unwrap()` (`none` models the panic on an unrecognized
label) and the payload inserted. -/
def mergeAssets (assets : List String) (priceName : String) :
    List (String × Json) → PriceTable → Option PriceTable
  | [], acc => some acc
  | (assetName, prices) :: rest, acc =>
    if assetName ∈ assets then
      match PriceType.from_str priceName with
      | .ok pt =>
        match updateTable acc assetName pt prices with
        | none => none
        | some acc2 => mergeAssets assets priceName rest acc2
      | .error _ => none
    else
      mergeAssets assets priceName rest acc

/-- The loop over one task result's `type_map`
(`src/alpaca_wrapper.rs:121-137`): each entry whose value is a JSON object
is merged; a non-object entry is only reported (`println!`) and skipped. -/
def mergeTypes (assets : List String) :
    List (String × Json) → PriceTable → Option PriceTable
  | [], acc => some acc
  | (priceName, priceValues) :: rest, acc =>
    match priceValues with
    | .obj priceMap =>
      match mergeAssets assets priceName priceMap acc with
      | none => none
      | some acc2 => mergeTypes assets rest acc2
    | _ => mergeTypes assets rest acc

/-- One iteration of the `join_next` loop (`src/alpaca_wrapper.rs:117-141`)
applied to an already-unwrapped task value: a non-object value is only
reported (`println!`) and skipped. -/
def mergeResult (assets : List String) (acc : PriceTable) (v : Json) :
    Option PriceTable :=
  match v with
  | .obj typeMap => mergeTypes assets typeMap acc
  | _ => some acc

/-- `AlpacaWrapper::update_prices` (`src/alpaca_wrapper.rs:93-147`).
Input: the tracked assets and the per-task results in consumption order.
Output `some (asset_prices, stored)`: `asset_prices` is the merged table
the loop builds (initialized with an empty per-asset map for every
tracked asset), and `stored` is the value assigned to `self.last_prices`
under the write lock — the untouched local `last_prices`, i.e. the empty
map.  `none` models a panic (`result.unwrap().unwrap()` on a failed task,
an unrecognized price-type label, or a `get_mut` miss). -/
def update_prices (assets : List String)
    (results : List (Except AlpacaError Json)) :
    Option (PriceTable × PriceTable) :=
  joinLoop assets results (assets.map (fun a => (a, [])))
where
  /-- The `while let Some(result) = ... join_next()` loop followed by the
  final store of the empty `last_prices`. -/
  joinLoop (assets : List String) :
      List (Except AlpacaError Json) → PriceTable → Option (PriceTable × PriceTable)
    | [], acc => some (acc, [])
    | r :: rest, acc =>
      match r with
      | .error _ => none
      | .ok v =>
        match mergeResult assets acc v with
        | none => none
        | some acc2 => joinLoop assets rest acc2

/-! ### `AtomicF64` (`src/utils.rs:76-99`)

An `f64` is embedded by its IEEE-754 fields: sign (1 bit), biased exponent
(11 bits) and fraction (52 bits).  Every 64-bit pattern — every NaN
payload, both zeros, both infinities — corresponds to exactly one value of
`F64Value`.  `to_bits`/`from_bits` pack and unpack these fields into the
64-bit word held by the `AtomicU64`, which is modelled as a `Nat` reduced
`% 2^64`. -/

/-- An `f64` bit pattern, split into its IEEE-754 fields. -/
structure F64Value where
  sign : Bool
  expo : Nat
  frac : Nat
  expo_lt : expo < 2048
  frac_lt : frac < 4503599627370496

/-- `f64::to_bits`: pack sign, exponent and fraction into the 64-bit
word. -/
def F64Value.to_bits (v : F64Value) : Nat :=
  (if v.sign then 9223372036854775808 else 0) + v.expo * 4503599627370496 + v.frac

/-- `f64::from_bits`: unpack a 64-bit word into the three fields. -/
def f64_from_bits (n : Nat) : F64Value where
  sign := n / 9223372036854775808 % 2 = 1
  expo := n / 4503599627370496 % 2048
  frac := n % 4503599627370496
  expo_lt := Nat.mod_lt _ (by norm_num)
  frac_lt := Nat.mod_lt _ (by norm_num)

/-- `AtomicF64::store` (`src/utils.rs:85-88`): the cell holds
`value.to_bits()` as a 64-bit machine word. -/
def AtomicF64.store (v : F64Value) : Nat :=
  v.to_bits % 18446744073709551616

/-- `AtomicF64::load` (`src/utils.rs:89-92`): read the word and
`f64::from_bits` it. -/
def AtomicF64.load (cell : Nat) : F64Value :=
  f64_from_bits cell

end AlpacaRs

namespace AlpacaRs

/-! ## Claims -/

/-- Sample task result for the `trades` fan-out task over the universe
`{AAPL, MSFT}`; the response also carries the untracked symbol `GOOG`. -/
def sampleTrades : Json :=
  .obj [("trades", .obj [("AAPL", .str "tA"), ("GOOG", .str "tG"), ("MSFT", .str "tM")])]

/-- Sample task result for the `quotes` fan-out task. -/
def sampleQuotes : Json :=
  .obj [("quotes", .obj [("AAPL", .str "qA"), ("MSFT", .str "qM")])]

/-- Sample task result for the `bars` fan-out task. -/
def sampleBars : Json :=
  .obj [("bars", .obj [("AAPL", .str "bA"), ("MSFT", .str "bM")])]

/-- C1: over the universe `{AAPL, MSFT}` with three successful per-type
responses, the fan-out loop does build the merged table the claim
describes — each tracked asset maps to exactly the three `PriceType`
keys and the untracked symbol `GOOG` is excluded — but the table written
to `self.last_prices` is the second component of the result: the empty
map, not the merged table.  The merged `asset_prices` is discarded at
the end of `update_prices` (`src/alpaca_wrapper.rs:110,146`), so the
claim's final part ("the stored table is this merged table") fails on
the code. -/
theorem c1_update_prices_discards_merge :
    update_prices ["AAPL", "MSFT"] [.ok sampleTrades, .ok sampleQuotes, .ok sampleBars] =
      some ([("AAPL", [(.Trades, .str "tA"), (.Quotes, .str "qA"), (.Bars, .str "bA")]),
             ("MSFT", [(.Trades, .str "tM"), (.Quotes, .str "qM"), (.Bars, .str "bM")])],
            []) := by
  rfl

/-- C2 counterexample: with an empty asset list and the price type
`"unknown"`, `get_prices` returns the invalid-price-type error, not
`Ok` with an empty mapping — the allowed-set check precedes the
empty-assets short circuit (`src/alpaca_client.rs:225-236`).  (No HTTP
call happens on this path either.) -/
theorem c2_invalid_type_counterexample :
    get_prices [] "unknown"
        = .errored (.other "Invalid price type: unknown. Allowed: trades, quotes, bars") ∧
    (get_prices [] "unknown").httpCalls = 0 := by
  exact ⟨rfl, rfl⟩

/-- C2 (amended): with an empty asset list, `get_prices` performs zero
HTTP calls for every price type string; it returns `Ok` with an empty
JSON object exactly for the allowed types `trades`/`quotes`/`bars`, and
the invalid-price-type error for every other type string. -/
theorem c2_empty_assets_behavior (pt : String) :
    (get_prices [] pt).httpCalls = 0 ∧
    (pt ∈ allowed_types → get_prices [] pt = .ok (.obj [])) ∧
    (pt ∉ allowed_types → get_prices [] pt = .errored (.other (invalid_type_msg pt))) := by
  by_cases h : pt ∈ allowed_types
  · have hc : allowed_types.contains pt = true := by
      simpa using h
    simp [get_prices, hc, PricesOutcome.httpCalls, h]
  · have hc : allowed_types.contains pt = false := by
      simpa using h
    simp [get_prices, hc, PricesOutcome.httpCalls, h]

/-- C2 witness: the amended statement evaluated at the allowed type
`"bars"` and at the invalid type `"unknown"`. -/
theorem c2_empty_assets_witness :
    get_prices [] "bars" = .ok (.obj []) ∧
    (get_prices [] "unknown").httpCalls = 0 := by
  exact ⟨(c2_empty_assets_behavior "bars").2.1 (by decide),
         (c2_empty_assets_behavior "unknown").1⟩

/-- C3: whenever the key fails `^(PK|AK)[A-Z0-9]{10,}$` or the secret
fails `^[A-Za-z0-9]{40,}$`, `validate_keys` returns `false` and
`connect` returns `InvalidKeyFormat` on the branch taken before any
network request, performing zero HTTP calls.  Purity and determinism of
`validate_keys` hold by construction: the embedding is a function of the
two strings alone, faithfully to the Rust source, which only evaluates
the two regexes. -/
theorem c3_invalid_credentials_rejected (k s : String)
    (h : keyMatch k = false ∨ secretMatch s = false) :
    validate_keys k s = false ∧
    connect k s = .failBeforeNetwork .invalidKeyFormat ∧
    (connect k s).networkCalls = 0 := by
  have hv : validate_keys k s = false := by
    unfold validate_keys
    rcases h with h | h <;> simp [h]
  refine ⟨hv, ?_, ?_⟩ <;> simp [connect, hv, ConnectOutcome.networkCalls]

/-- C3 witness: the credentials `("INVALID", "secret")` fail validation
and `connect` rejects them before the network. -/
theorem c3_invalid_credentials_witness :
    validate_keys "INVALID" "secret" = false ∧
    connect "INVALID" "secret" = .failBeforeNetwork .invalidKeyFormat ∧
    (connect "INVALID" "secret").networkCalls = 0 := by
  exact c3_invalid_credentials_rejected "INVALID" "secret" (Or.inl (by decide))

/-- C4: every response whose status is outside the 2xx range is turned
into `HttpError` carrying exactly that status and the body text, with
`"Unknown error"` substituted when the body cannot be read.  A 429
response takes this same path (after a rate-limit warning log) and
`make_request` consumes exactly one send outcome, so nothing is
retried. -/
theorem c4_non2xx_http_error (r : HttpResponse) (h : r.status < 200 ∨ 299 < r.status) :
    make_request (.response r) = .error (.httpError r.status (r.body.getD "Unknown error")) := by
  have hs : statusIsSuccess r.status = false := by
    unfold statusIsSuccess
    rcases h with h | h <;> simp <;> omega
  simp [make_request, hs]

/-- C4 witness: a 400 response with body `"Bad request"` yields
`HttpError { status := 400, message := "Bad request" }`; an unreadable
body falls back to `"Unknown error"`; a 429 yields the ordinary
`HttpError`. -/
theorem c4_non2xx_http_error_witness :
    make_request (.response ⟨400, some "Bad request", none⟩)
        = .error (.httpError 400 "Bad request") ∧
    make_request (.response ⟨502, none, none⟩)
        = .error (.httpError 502 "Unknown error") ∧
    make_request (.response ⟨429, some "Rate limit exceeded", none⟩)
        = .error (.httpError 429 "Rate limit exceeded") := by
  exact ⟨c4_non2xx_http_error _ (by decide),
         c4_non2xx_http_error _ (by decide),
         c4_non2xx_http_error _ (by decide)⟩

/-- C5: with a non-empty asset list, `get_prices` fails with the domain
error (`AlpacaError::Other`) exactly when the price type is outside
`{trades, quotes, bars}`, and proceeds to the request exactly when it is
a member; the error message `invalid_type_msg pt` names the invalid
value and the joined allowed set by construction. -/
theorem c5_price_type_gate (assets : List String) (pt : String) (h : assets ≠ []) :
    (get_prices assets pt = .errored (.other (invalid_type_msg pt)) ↔ pt ∉ allowed_types) ∧
    (get_prices assets pt
        = .request ("/v2/stocks/" ++ pt ++ "/latest") (String.intercalate "," assets)
      ↔ pt ∈ allowed_types) := by
  have hne : assets.isEmpty = false := by
    cases assets with
    | nil => exact absurd rfl h
    | cons a rest => rfl
  by_cases hm : pt ∈ allowed_types
  · have hc : allowed_types.contains pt = true := by
      simpa using hm
    simp [get_prices, hc, hne, hm]
  · have hc : allowed_types.contains pt = false := by
      simpa using hm
    simp [get_prices, hc, hne, hm]

/-- C5 witness: over the non-empty asset list `["AAPL"]`, the type
`"unknown"` produces the domain error naming the value and the allowed
set, while `"bars"` proceeds to the request. -/
theorem c5_price_type_gate_witness :
    get_prices ["AAPL"] "unknown"
        = .errored (.other "Invalid price type: unknown. Allowed: trades, quotes, bars") ∧
    get_prices ["AAPL"] "bars" = .request "/v2/stocks/bars/latest" "AAPL" := by
  exact ⟨(c5_price_type_gate ["AAPL"] "unknown" (by decide)).1.mpr (by decide),
         (c5_price_type_gate ["AAPL"] "bars" (by decide)).2.mpr (by decide)⟩

/-- C6: `PriceType` parsing succeeds exactly on the three lowercase
names (yielding the respective variant), fails with an explicit error on
every other string (never defaulting), and the printed form of every
variant parses back to that variant. -/
theorem c6_price_type_parse :
    (∀ t : PriceType, PriceType.from_str t.fmt = .ok t) ∧
    (∀ s : String, s ≠ "trades" → s ≠ "quotes" → s ≠ "bars" →
      PriceType.from_str s
        = .error ("Invalid value: " ++ s ++ ". Expected one of: trades, quotes, bars")) ∧
    (∀ (s : String) (t : PriceType), PriceType.from_str s = .ok t → s = t.fmt) := by
  refine ⟨fun t => by cases t <;> rfl,
          fun s h1 h2 h3 => by simp [PriceType.from_str, h1, h2, h3], ?_⟩
  intro s t h
  unfold PriceType.from_str at h
  split_ifs at h with h1 h2 h3
  · injection h with h; subst h; exact h1
  · injection h with h; subst h; exact h2
  · injection h with h; subst h; exact h3

/-- C6 witness: the string `"xyz"` fails parsing with the explicit
error, and the printed form of `Trades` parses back to `Trades`. -/
theorem c6_price_type_parse_witness :
    PriceType.from_str "xyz"
        = .error "Invalid value: xyz. Expected one of: trades, quotes, bars" ∧
    PriceType.from_str "trades" = .ok .Trades := by
  exact ⟨c6_price_type_parse.2.1 "xyz" (by decide) (by decide) (by decide),
         c6_price_type_parse.1 .Trades⟩

/-- A server position entry for `AAPL` whose `qty_available` field is
the string `"100.0"`, as in the claim. -/
def samplePosition : Json :=
  .obj [("symbol", .str "AAPL"), ("qty_available", .str "100.0"),
        ("market_value", .str "15000.0"), ("avg_entry_price", .str "150.0"),
        ("current_price", .str "150.0")]

/-- C7: on the ordinary server positions response — a JSON array of
position objects — `update_positions_async` panics instead of building
the book.  The source iterates `Result<Value, _>::into_iter()`, which
yields the whole response value once rather than its array elements, so
`position["symbol"]` indexes the array (giving JSON null) and
`as_str().unwrap()` panics (`none`).  The second conjunct shows the parse
the claim describes is what the per-object code would produce — applied
to the position object itself, `qty_available = "100.0"` does become the
float `100` — the loop just never reaches the objects. -/
theorem c7_update_positions_panics :
    update_positions ["AAPL"] (.ok (.arr [samplePosition])) [] .acquired = none ∧
    (mkPosition samplePosition).qty = .finite 100 := by
  exact ⟨rfl, rfl⟩

/-- C8 counterexample: an account response whose `cash` field is the
string `"NaN"` parses successfully under Rust `f64` syntax, so the cash
refresh hands NaN — a non-finite value — to the atomic store; the
claimed invariant "the stored value is never NaN, for every input
string" fails on the code. -/
theorem c8_nan_counterexample :
    update_cash (.ok (.obj [("cash", .str "NaN")])) = some .nan ∧
    RustF64.isFinite .nan = false := by
  exact ⟨rfl, rfl⟩

/-- The value the cash refresh stores for a cash string `s`: the Rust
`f64` parse of `s` with `0.0` substituted on parse failure
(`src/alpaca_wrapper.rs:199-212`). -/
def storedCash (s : String) : RustF64 := (rustParseF64 s).getD (.finite 0)

/-- C8 (amended): for every account response carrying a string `cash`
field `s`, the refresh completes and stores exactly the parse of `s`
with the `0.0` fallback; the stored value is NaN precisely when `s`
itself parses to NaN under Rust float syntax (e.g. the literal
`"NaN"`) — so finiteness holds for every string that does not parse to a
non-finite value, but not for every input string. -/
theorem c8_cash_store_amended (s : String) :
    update_cash (.ok (.obj [("cash", .str s)])) = some (storedCash s) ∧
    ((storedCash s).isNan = true ↔ rustParseF64 s = some .nan) := by
  constructor
  · rfl
  · unfold storedCash
    cases h : rustParseF64 s with
    | none => simp [RustF64.isNan]
    | some v => cases v <;> simp [RustF64.isNan]

/-- C9: whenever the replacement book was built without panicking and
the write lock on the `PositionBook` is poisoned, the refresh returns
normally (`some`, no panic and no propagated error), the previously
stored book is retained unchanged, and the failure is logged. -/
theorem c9_poisoned_lock_preserves_book (assets : List String)
    (resp : Except AlpacaError Json) (old : Book) (nb : Book)
    (h : buildNewPositions assets resp = some nb) :
    update_positions assets resp old .poisoned = some (old, [lockFailMsg]) := by
  unfold update_positions
  rw [h]

/-- C9 witness: a refresh whose fetch failed (so the collected book is
empty and the build completes), hitting a poisoned lock, keeps the old
book `[("MSFT", …)]` and logs the failure. -/
theorem c9_poisoned_lock_witness :
    update_positions ["AAPL"] (.error .timeout)
        [("MSFT", ⟨.finite 1, .finite 2, .finite 3, .finite 4⟩)] .poisoned
      = some ([("MSFT", ⟨.finite 1, .finite 2, .finite 3, .finite 4⟩)], [lockFailMsg]) := by
  exact c9_poisoned_lock_preserves_book ["AAPL"] (.error .timeout)
    [("MSFT", ⟨.finite 1, .finite 2, .finite 3, .finite 4⟩)] [] rfl

/-- Two `f64` values with the same sign, exponent and fraction fields
are equal (the bound fields are proofs). -/
theorem F64Value.eq_of_fields {a b : F64Value} (h1 : a.sign = b.sign)
    (h2 : a.expo = b.expo) (h3 : a.frac = b.frac) : a = b := by
  cases a; cases b; cases h1; cases h2; cases h3; rfl

set_option maxRecDepth 4096

/-- C10: for every `f64` value — every bit pattern, including every NaN
payload, negative zero and the infinities — `AtomicF64::load` after
`AtomicF64::store` returns exactly the value with the stored bit
pattern: packing the fields into the atomic 64-bit word and unpacking
them is a bit-exact round trip. -/
theorem c10_atomicf64_roundtrip (v : F64Value) :
    AtomicF64.load (AtomicF64.store v) = v := by
  obtain ⟨s, e, f, he, hf⟩ := v
  unfold AtomicF64.load AtomicF64.store f64_from_bits F64Value.to_bits
  apply F64Value.eq_of_fields <;> simp only [] <;> cases s
  all_goals simp only [if_true, if_false, Bool.false_eq_true, decide_eq_true_eq]
  all_goals first
    | (simp only [decide_eq_false_iff_not]; omega)
    | omega

end AlpacaRs
